import Mathlib

/-!
Verification of the Signum SmartC testbed sample contract
(src/src/__test__/test-contract.smart.c) against its specification.

The contract itself is embedded from the source.  The host runtime
primitives it calls (ledger transfers, the key-value store, the
transaction queue, checked 64-bit arithmetic) are not part of the
repository sources; those are modelled from the specification, as each
doc comment notes.
-/

/-- Signed 64-bit upper bound used by the spec-modelled checked arithmetic. -/
def INT64_MAX : Int := 2 ^ 63 - 1

/-- Signed 64-bit lower bound used by the spec-modelled checked arithmetic. -/
def INT64_MIN : Int := -(2 ^ 63)

/-- A transaction addressed to the contract: id, sender account, attached
native amount, and a four-slot message (slot 0 is the method code). -/
structure Tx where
  txId : Int
  sender : Int
  amount : Int
  message0 : Int
  message1 : Int
  message2 : Int
  message3 : Int

/-- The contract's visible state: its own account id, the creator account
id, the `percentage` global, the key-value map (primaryKey, subKey) to
value, and the ledger of balances (account, assetId) to balance.  Asset id
0 is the native asset. -/
structure CState where
  contractId : Int
  creator : Int
  percentage : Int
  kv : Int → Int → Int
  bal : Int → Int → Int

/-- Modelled from the spec: pointwise update of a balance table. -/
def setBal (b : Int → Int → Int) (acc asset v : Int) : Int → Int → Int :=
  fun a s => if a = acc ∧ s = asset then v else b a s

/-- Modelled from the spec (Ledger.debit): fails with InsufficientFunds
when the balance is below the amount, otherwise decreases the balance. -/
def debit (b : Int → Int → Int) (acc asset amt : Int) :
    Option (Int → Int → Int) :=
  if b acc asset < amt then none
  else some (setBal b acc asset (b acc asset - amt))

/-- Modelled from the spec (Ledger.credit): fails with Overflow when the
result would exceed the 64-bit integer domain, otherwise increases the
balance. -/
def credit (b : Int → Int → Int) (acc asset amt : Int) :
    Option (Int → Int → Int) :=
  if INT64_MAX < b acc asset + amt then none
  else some (setBal b acc asset (b acc asset + amt))

/-- Modelled from the spec (Ledger.transfer): debit then credit, atomic. -/
def transfer (b : Int → Int → Int) (fromA toA asset amt : Int) :
    Option (Int → Int → Int) :=
  (debit b fromA asset amt).bind fun b1 => credit b1 toA asset amt

/-- Modelled from the spec: host primitive sendAmount, a native-asset
transfer debited from the contract's own account. -/
def sendAmount (s : CState) (amt recipientId : Int) : Option CState :=
  (transfer s.bal s.contractId recipientId 0 amt).map fun b => { s with bal := b }

/-- Modelled from the spec: host primitive sendBalance transfers the
contract's entire native balance to the recipient. -/
def sendBalance (s : CState) (recipientId : Int) : Option CState :=
  sendAmount s (s.bal s.contractId 0) recipientId

/-- Modelled from the spec: host primitive sendQuantity, a secondary-asset
transfer debited from the contract's own account. -/
def sendQuantity (s : CState) (amt assetId recipientId : Int) : Option CState :=
  (transfer s.bal s.contractId recipientId assetId amt).map fun b => { s with bal := b }

/-- Modelled from the spec: host primitive getAssetBalance, the contract's
own balance of a secondary asset. -/
def getAssetBalance (s : CState) (assetId : Int) : Int :=
  s.bal s.contractId assetId

/-- Modelled from the spec: KV-store primitive setMapValue, an
unconditional overwrite at (primaryKey, secondaryKey). -/
def setMapValue (s : CState) (k1 k2 v : Int) : CState :=
  { s with kv := fun a b => if a = k1 ∧ b = k2 then v else s.kv a b }

/-- Modelled from the spec: KV-store get, default 0 for absent entries. -/
def getMapValue (s : CState) (k1 k2 : Int) : Int :=
  s.kv k1 k2

/-- Modelled from the spec: all arithmetic is overflow-checked; a product
outside the 64-bit domain is a fatal error, never a wrapped value. -/
def mulChecked (a b : Int) : Option Int :=
  if a * b < INT64_MIN ∨ INT64_MAX < a * b then none else some (a * b)

/-- Method code FORWARD_PERCENTAGE from the source. -/
def FORWARD_PERCENTAGE : Int := 1

/-- Method code UPDATE_PERCENTAGE from the source. -/
def UPDATE_PERCENTAGE : Int := 2

/-- Method code SET_MAP_VALUE from the source. -/
def SET_MAP_VALUE : Int := 3

/-- Method code PULL_FUNDS from the source. -/
def PULL_FUNDS : Int := 4

/-- Map primary key MAP_KEY_EXAMPLE from the source. -/
def MAP_KEY_EXAMPLE : Int := 1

/-- Handler pullFunds from the source: creator-only; tokenId 0 sends the
whole native balance to the creator, otherwise the whole balance of that
asset. -/
def pullFunds (s : CState) (sender tokenId : Int) : Option CState :=
  if sender ≠ s.creator then some s
  else if tokenId = 0 then sendBalance s s.creator
  else sendQuantity s (getAssetBalance s tokenId) tokenId s.creator

/-- Handler updatePercentage from the source: creator-only; clamps the new
value into the range 0 to 100 before storing it. -/
def updatePercentage (s : CState) (sender newPercentage : Int) : CState :=
  if sender ≠ s.creator then s
  else if newPercentage > 100 then { s with percentage := 100 }
  else if newPercentage < 0 then { s with percentage := 0 }
  else { s with percentage := newPercentage }

/-- Handler forwardPercentage from the source: no-op when the stored
percentage is 0, otherwise sends (amount * percentage) / 100 (integer
division, overflow-checked multiplication) to the recipient. -/
def forwardPercentage (s : CState) (amount recipientId : Int) : Option CState :=
  if s.percentage = 0 then some s
  else (mulChecked amount s.percentage).bind fun m =>
    sendAmount s (Int.tdiv m 100) recipientId

/-- The dispatch step of main from the source: branch on message slot 0;
unrecognized codes fall through the switch and change nothing.  A `none`
result is a fatal arithmetic error inside a host primitive. -/
def processTx (s : CState) (tx : Tx) : Option CState :=
  if tx.message0 = FORWARD_PERCENTAGE then forwardPercentage s tx.amount tx.message1
  else if tx.message0 = UPDATE_PERCENTAGE then some (updatePercentage s tx.sender tx.message1)
  else if tx.message0 = SET_MAP_VALUE then some (setMapValue s MAP_KEY_EXAMPLE tx.message1 tx.message2)
  else if tx.message0 = PULL_FUNDS then pullFunds s tx.sender tx.message1
  else some s

/-- Processing one transaction.  Modelled from the spec: a fatal
arithmetic error aborts that transaction's effects atomically, leaving
the pre-transaction state. -/
def step (s : CState) (tx : Tx) : CState :=
  (processTx s tx).getD s

/-- The while loop of main from the source: getNextTx yields the queued
transactions in order and the sentinel transaction id 0 terminates the
loop. -/
def mainLoop : CState → List Tx → CState
  | s, [] => s
  | s, tx :: rest => if tx.txId = 0 then s else mainLoop (step s tx) rest

/-- The constructor from the source has an empty body. -/
def constructorBody (s : CState) : CState :=
  s

/-- A freshly constructed contract: the global `percentage` and the map
are default-initialized to zero, then the (empty) constructor runs. -/
def initialState (contractId creator : Int) (b : Int → Int → Int) : CState :=
  constructorBody
    { contractId := contractId, creator := creator, percentage := 0,
      kv := fun _ _ => 0, bal := b }

/-- A concrete balance table for witnesses: the contract account 10 holds
1000 native units and 77 units of asset 9; everyone else holds nothing. -/
def exBal : Int → Int → Int := fun a s =>
  if a = 10 ∧ s = 0 then 1000 else if a = 10 ∧ s = 9 then 77 else 0

/-- A concrete contract state for witnesses: account 10, creator 7,
stored percentage 50, empty map. -/
def exState : CState :=
  { contractId := 10, creator := 7, percentage := 50,
    kv := fun _ _ => 0, bal := exBal }

/-- A concrete ForwardPercentage transaction: 100 native units attached,
recipient 20. -/
def txFwd : Tx :=
  { txId := 5, sender := 99, amount := 100,
    message0 := 1, message1 := 20, message2 := 0, message3 := 0 }

/-- A concrete creator-sent UpdatePercentage transaction asking for 150. -/
def txUpd : Tx :=
  { txId := 6, sender := 7, amount := 0,
    message0 := 2, message1 := 150, message2 := 0, message3 := 0 }

/-- A concrete non-creator UpdatePercentage transaction. -/
def txUpdBad : Tx :=
  { txId := 7, sender := 8, amount := 0,
    message0 := 2, message1 := 30, message2 := 0, message3 := 0 }

/-- A concrete creator-sent PullFunds transaction for the native asset. -/
def txPull : Tx :=
  { txId := 8, sender := 7, amount := 0,
    message0 := 4, message1 := 0, message2 := 0, message3 := 0 }

/-- A concrete SetMapValue transaction writing 777 at sub-key 42. -/
def txMap : Tx :=
  { txId := 9, sender := 55, amount := 0,
    message0 := 3, message1 := 42, message2 := 777, message3 := 0 }

/-- A concrete transaction with the unrecognized method code 99. -/
def txUnknown : Tx :=
  { txId := 11, sender := 7, amount := 3,
    message0 := 99, message1 := 1, message2 := 2, message3 := 3 }

/-- A concrete sentinel entry carrying transaction id 0. -/
def txStop : Tx :=
  { txId := 0, sender := 0, amount := 0,
    message0 := 0, message1 := 0, message2 := 0, message3 := 0 }

/-- C5: a transaction whose message slot 0 is none of the recognized
method codes 1, 2, 3, 4 raises no error and leaves the whole contract
state unchanged. -/
theorem unknownMethod_noop (s : CState) (tx : Tx)
    (h1 : tx.message0 ≠ 1) (h2 : tx.message0 ≠ 2)
    (h3 : tx.message0 ≠ 3) (h4 : tx.message0 ≠ 4) :
    step s tx = s := by
  simp [step, processTx, FORWARD_PERCENTAGE, UPDATE_PERCENTAGE,
    SET_MAP_VALUE, PULL_FUNDS, h1, h2, h3, h4]

/-- Witness for C5 at the concrete state and transaction. -/
theorem unknownMethod_noop_witness : step exState txUnknown = exState :=
  unknownMethod_noop exState txUnknown (by decide) (by decide) (by decide)
    (by decide)

/-- C4: an UpdatePercentage or PullFunds transaction whose sender is not
the creator is a silent no-op: the whole contract state is unchanged.
The authorization guard lives inside updatePercentage and pullFunds, not
in the dispatch of processTx. -/
theorem unauthorized_noop (s : CState) (tx : Tx)
    (hm : tx.message0 = 2 ∨ tx.message0 = 4) (hs : tx.sender ≠ s.creator) :
    step s tx = s := by
  rcases hm with hm | hm
  · simp [step, processTx, updatePercentage, FORWARD_PERCENTAGE,
      UPDATE_PERCENTAGE, hm, hs]
  · simp [step, processTx, pullFunds, FORWARD_PERCENTAGE, UPDATE_PERCENTAGE,
      SET_MAP_VALUE, PULL_FUNDS, hm, hs]

/-- Witness for C4 at the concrete state and transaction. -/
theorem unauthorized_noop_witness : step exState txUpdBad = exState :=
  unauthorized_noop exState txUpdBad (Or.inl rfl) (by decide)

/-- C2: a creator-sent UpdatePercentage transaction stores message slot 1
clamped into the range 0 to 100: values above 100 store 100, negative
values store 0, in-range values are stored unchanged. -/
theorem updatePercentage_spec (s : CState) (tx : Tx)
    (hm : tx.message0 = 2) (hs : tx.sender = s.creator) :
    (100 < tx.message1 → (step s tx).percentage = 100) ∧
    (tx.message1 < 0 → (step s tx).percentage = 0) ∧
    (0 ≤ tx.message1 → tx.message1 ≤ 100 →
      (step s tx).percentage = tx.message1) := by
  have hstep : step s tx = updatePercentage s tx.sender tx.message1 := by
    simp [step, processTx, FORWARD_PERCENTAGE, UPDATE_PERCENTAGE, hm]
  rw [hstep]
  unfold updatePercentage
  rw [if_neg (by simp [hs])]
  refine ⟨fun h => ?_, fun h => ?_, fun h h2 => ?_⟩
  · rw [if_pos (by omega)]
  · rw [if_neg (by omega), if_pos h]
  · rw [if_neg (by omega), if_neg (by omega)]

/-- Witness for C2 at the concrete state and transaction: 150 clamps to
100. -/
theorem updatePercentage_spec_witness : (step exState txUpd).percentage = 100 :=
  (updatePercentage_spec exState txUpd rfl rfl).1 (by decide)

/-- C1: a ForwardPercentage transaction is a no-op when the stored
percentage is 0; otherwise, whatever the sender, when the transfer
succeeds the contract pays exactly (attachedAmount * percentage) / 100
(truncating integer division) out of its own native balance to the
recipient named in message slot 1. -/
theorem forwardPercentage_spec (s : CState) (tx : Tx) (hm : tx.message0 = 1) :
    (s.percentage = 0 → step s tx = s) ∧
    (s.percentage ≠ 0 →
      INT64_MIN ≤ tx.amount * s.percentage →
      tx.amount * s.percentage ≤ INT64_MAX →
      Int.tdiv (tx.amount * s.percentage) 100 ≤ s.bal s.contractId 0 →
      s.bal tx.message1 0 + Int.tdiv (tx.amount * s.percentage) 100 ≤ INT64_MAX →
      tx.message1 ≠ s.contractId →
      (step s tx).bal s.contractId 0
          = s.bal s.contractId 0 - Int.tdiv (tx.amount * s.percentage) 100 ∧
      (step s tx).bal tx.message1 0
          = s.bal tx.message1 0 + Int.tdiv (tx.amount * s.percentage) 100) := by
  have hstep : step s tx = (forwardPercentage s tx.amount tx.message1).getD s := by
    simp [step, processTx, FORWARD_PERCENTAGE, hm]
  constructor
  · intro hp
    rw [hstep]
    simp [forwardPercentage, hp]
  · intro hp hlo hhi hdeb hcred hne
    have hmul : mulChecked tx.amount s.percentage
        = some (tx.amount * s.percentage) := by
      unfold mulChecked
      rw [if_neg (by omega)]
    have hb1 : debit s.bal s.contractId 0 (Int.tdiv (tx.amount * s.percentage) 100)
        = some (setBal s.bal s.contractId 0
            (s.bal s.contractId 0 - Int.tdiv (tx.amount * s.percentage) 100)) := by
      unfold debit
      rw [if_neg (by omega)]
    have hrec : setBal s.bal s.contractId 0
        (s.bal s.contractId 0 - Int.tdiv (tx.amount * s.percentage) 100)
        tx.message1 0 = s.bal tx.message1 0 := by
      unfold setBal
      rw [if_neg (fun hc => hne hc.1)]
    have hb2 : credit (setBal s.bal s.contractId 0
          (s.bal s.contractId 0 - Int.tdiv (tx.amount * s.percentage) 100))
        tx.message1 0 (Int.tdiv (tx.amount * s.percentage) 100)
        = some (setBal (setBal s.bal s.contractId 0
            (s.bal s.contractId 0 - Int.tdiv (tx.amount * s.percentage) 100))
          tx.message1 0
          (s.bal tx.message1 0 + Int.tdiv (tx.amount * s.percentage) 100)) := by
      unfold credit
      rw [hrec, if_neg (by omega)]
    rw [hstep]
    unfold forwardPercentage
    rw [if_neg hp, hmul]
    simp only [Option.some_bind]
    unfold sendAmount transfer
    rw [hb1]
    simp only [Option.some_bind]
    rw [hb2]
    simp only [Option.map_some', Option.getD_some]
    constructor
    · show setBal (setBal s.bal s.contractId 0
          (s.bal s.contractId 0 - Int.tdiv (tx.amount * s.percentage) 100))
        tx.message1 0
        (s.bal tx.message1 0 + Int.tdiv (tx.amount * s.percentage) 100)
        s.contractId 0
        = s.bal s.contractId 0 - Int.tdiv (tx.amount * s.percentage) 100
      unfold setBal
      rw [if_neg (fun hc => hne hc.1.symm), if_pos ⟨rfl, rfl⟩]
    · show setBal (setBal s.bal s.contractId 0
          (s.bal s.contractId 0 - Int.tdiv (tx.amount * s.percentage) 100))
        tx.message1 0
        (s.bal tx.message1 0 + Int.tdiv (tx.amount * s.percentage) 100)
        tx.message1 0
        = s.bal tx.message1 0 + Int.tdiv (tx.amount * s.percentage) 100
      unfold setBal
      rw [if_pos ⟨rfl, rfl⟩]

/-- Witness for C1: contract balance 1000 pays 50 of the 100 attached
units to recipient 20. -/
theorem forwardPercentage_spec_witness :
    (step exState txFwd).bal exState.contractId 0
        = exState.bal exState.contractId 0
            - Int.tdiv (txFwd.amount * exState.percentage) 100 ∧
    (step exState txFwd).bal txFwd.message1 0
        = exState.bal txFwd.message1 0
            + Int.tdiv (txFwd.amount * exState.percentage) 100 :=
  (forwardPercentage_spec exState txFwd rfl).2 (by decide) (by decide)
    (by decide) (by decide) (by decide) (by decide)

/-- A successful transfer debits the source, credits the destination and
touches no other balance. -/
theorem transfer_spec (b : Int → Int → Int) (fromA toA asset amt : Int)
    (hne : toA ≠ fromA)
    (hdeb : amt ≤ b fromA asset)
    (hcred : b toA asset + amt ≤ INT64_MAX) :
    ∃ b2, transfer b fromA toA asset amt = some b2 ∧
      b2 fromA asset = b fromA asset - amt ∧
      b2 toA asset = b toA asset + amt ∧
      ∀ a v, a ≠ fromA → a ≠ toA → b2 a v = b a v := by
  unfold transfer debit credit
  rw [if_neg (by omega)]
  simp only [Option.some_bind]
  have hto : setBal b fromA asset (b fromA asset - amt) toA asset
      = b toA asset := by
    unfold setBal
    rw [if_neg (fun hc => hne hc.1)]
  rw [hto, if_neg (by omega)]
  refine ⟨_, rfl, ?_, ?_, ?_⟩
  · unfold setBal
    rw [if_neg (fun hc => hne hc.1.symm), if_pos ⟨rfl, rfl⟩]
  · unfold setBal
    rw [if_pos ⟨rfl, rfl⟩]
  · intro a v ha1 ha2
    unfold setBal
    rw [if_neg (fun hc => ha2 hc.1), if_neg (fun hc => ha1 hc.1)]

/-- C3: a creator-sent PullFunds transaction withdraws the contract's
entire balance to the creator: the native balance when message slot 1 is
0, otherwise the whole balance of that asset.  The amount moved is always
the full balance. -/
theorem pullFunds_spec (s : CState) (tx : Tx)
    (hm : tx.message0 = 4) (hs : tx.sender = s.creator)
    (hne : s.creator ≠ s.contractId) :
    (tx.message1 = 0 →
      s.bal s.creator 0 + s.bal s.contractId 0 ≤ INT64_MAX →
      (step s tx).bal s.contractId 0 = 0 ∧
      (step s tx).bal s.creator 0
        = s.bal s.creator 0 + s.bal s.contractId 0) ∧
    (tx.message1 ≠ 0 →
      s.bal s.creator tx.message1 + s.bal s.contractId tx.message1 ≤ INT64_MAX →
      (step s tx).bal s.contractId tx.message1 = 0 ∧
      (step s tx).bal s.creator tx.message1
        = s.bal s.creator tx.message1 + s.bal s.contractId tx.message1) := by
  have hstep : step s tx = (pullFunds s tx.sender tx.message1).getD s := by
    simp [step, processTx, FORWARD_PERCENTAGE, UPDATE_PERCENTAGE,
      SET_MAP_VALUE, PULL_FUNDS, hm]
  constructor
  · intro h0 hcred
    obtain ⟨b2, ht, hfrom, hto, _⟩ :=
      transfer_spec s.bal s.contractId s.creator 0 (s.bal s.contractId 0)
        hne (le_refl _) hcred
    rw [hstep]
    unfold pullFunds
    rw [if_neg (by simp [hs]), if_pos h0]
    unfold sendBalance sendAmount
    rw [ht]
    simp only [Option.map_some', Option.getD_some]
    refine ⟨?_, ?_⟩
    · show b2 s.contractId 0 = 0
      rw [hfrom]
      omega
    · show b2 s.creator 0 = s.bal s.creator 0 + s.bal s.contractId 0
      exact hto
  · intro h0 hcred
    obtain ⟨b2, ht, hfrom, hto, _⟩ :=
      transfer_spec s.bal s.contractId s.creator tx.message1
        (s.bal s.contractId tx.message1) hne (le_refl _) hcred
    rw [hstep]
    unfold pullFunds
    rw [if_neg (by simp [hs]), if_neg h0]
    unfold sendQuantity getAssetBalance
    rw [ht]
    simp only [Option.map_some', Option.getD_some]
    refine ⟨?_, ?_⟩
    · show b2 s.contractId tx.message1 = 0
      rw [hfrom]
      omega
    · show b2 s.creator tx.message1
          = s.bal s.creator tx.message1 + s.bal s.contractId tx.message1
      exact hto

/-- Witness for C3: the creator pulls the whole native balance of 1000. -/
theorem pullFunds_spec_witness :
    (step exState txPull).bal exState.contractId 0 = 0 ∧
    (step exState txPull).bal exState.creator 0
      = exState.bal exState.creator 0 + exState.bal exState.contractId 0 :=
  (pullFunds_spec exState txPull rfl rfl (by decide)).1 rfl (by decide)

/-- C6: a SetMapValue transaction from any sender overwrites the KV-store
entry at primary key 1 and the sub-key in message slot 1 with the value in
message slot 2; a get of that entry then returns the value, other entries
are untouched, and a never-written entry of a fresh contract reads 0. -/
theorem setMapValue_spec (s : CState) (tx : Tx) (hm : tx.message0 = 3) :
    getMapValue (step s tx) 1 tx.message1 = tx.message2 ∧
    (∀ k1 k2, ¬(k1 = 1 ∧ k2 = tx.message1) →
      getMapValue (step s tx) k1 k2 = getMapValue s k1 k2) ∧
    (∀ cid cr b k1 k2, getMapValue (initialState cid cr b) k1 k2 = 0) := by
  have hstep : step s tx
      = setMapValue s MAP_KEY_EXAMPLE tx.message1 tx.message2 := by
    simp [step, processTx, FORWARD_PERCENTAGE, UPDATE_PERCENTAGE,
      SET_MAP_VALUE, hm]
  refine ⟨?_, ?_, ?_⟩
  · rw [hstep]
    show (if (1 : Int) = 1 ∧ tx.message1 = tx.message1
        then tx.message2 else s.kv 1 tx.message1) = tx.message2
    rw [if_pos ⟨rfl, rfl⟩]
  · intro k1 k2 hk
    rw [hstep]
    show (if k1 = (1 : Int) ∧ k2 = tx.message1
        then tx.message2 else s.kv k1 k2) = s.kv k1 k2
    rw [if_neg hk]
  · intro cid cr b k1 k2
    rfl

/-- Witness for C6: writing 777 at sub-key 42 makes the entry read 777. -/
theorem setMapValue_spec_witness :
    getMapValue (step exState txMap) 1 txMap.message1 = txMap.message2 :=
  (setMapValue_spec exState txMap rfl).1

/-- The loop of main folds step over the queue, and a sentinel entry with
transaction id 0 stops it. -/
theorem mainLoop_foldl (txs : List Tx) :
    ∀ s : CState, (∀ tx ∈ txs, tx.txId ≠ 0) →
      mainLoop s txs = List.foldl step s txs ∧
      ∀ (stop : Tx) (rest : List Tx), stop.txId = 0 →
        mainLoop s (txs ++ stop :: rest) = List.foldl step s txs := by
  induction txs with
  | nil =>
    intro s h
    refine ⟨rfl, fun stop rest hstop => ?_⟩
    show (if stop.txId = 0 then s else mainLoop (step s stop) rest) = s
    rw [if_pos hstop]
  | cons tx txs ih =>
    intro s h
    have htx : tx.txId ≠ 0 := h tx (List.mem_cons_self tx txs)
    have h2 : ∀ t ∈ txs, t.txId ≠ 0 := fun t ht => h t (List.mem_cons_of_mem tx ht)
    refine ⟨?_, fun stop rest hstop => ?_⟩
    · show (if tx.txId = 0 then s else mainLoop (step s tx) txs)
        = List.foldl step (step s tx) txs
      rw [if_neg htx]
      exact (ih (step s tx) h2).1
    · show (if tx.txId = 0 then s else mainLoop (step s tx) (txs ++ stop :: rest))
        = List.foldl step (step s tx) txs
      rw [if_neg htx]
      exact (ih (step s tx) h2).2 stop rest hstop

/-- C7: over a block whose transactions all carry nonzero ids, the main
loop processes each transaction exactly once, in queue order (it equals a
left fold of step), and it terminates exactly at a sentinel entry with
transaction id 0, never revisiting anything after it. -/
theorem mainLoop_spec (s : CState) (txs rest : List Tx) (stop : Tx)
    (h : ∀ tx ∈ txs, tx.txId ≠ 0) (hstop : stop.txId = 0) :
    mainLoop s txs = List.foldl step s txs ∧
    mainLoop s (txs ++ stop :: rest) = List.foldl step s txs :=
  ⟨(mainLoop_foldl txs s h).1, (mainLoop_foldl txs s h).2 stop rest hstop⟩

/-- Witness for C7 on a concrete two-entry queue with a sentinel. -/
theorem mainLoop_spec_witness :
    mainLoop exState [txUpd] = List.foldl step exState [txUpd] ∧
    mainLoop exState ([txUpd] ++ txStop :: [txFwd])
      = List.foldl step exState [txUpd] :=
  mainLoop_spec exState [txUpd] [txFwd] txStop (by decide) rfl

/-- C8: with a non-negative attached amount and a stored percentage in
the range 0 to 100, the multiplication in forwardPercentage is
overflow-checked (a product above the 64-bit bound makes processing the
transaction a fatal error, never a wrapped value), and when it fits the
computed amount is exactly the floor of amount * percentage / 100. -/
theorem forwardAmount_exact (s : CState) (tx : Tx) (hm : tx.message0 = 1)
    (ha : 0 ≤ tx.amount) (hp0 : 0 ≤ s.percentage) (_hp1 : s.percentage ≤ 100) :
    (INT64_MAX < tx.amount * s.percentage → processTx s tx = none) ∧
    (tx.amount * s.percentage ≤ INT64_MAX →
      mulChecked tx.amount s.percentage
        = some (tx.amount * s.percentage)) ∧
    100 * Int.tdiv (tx.amount * s.percentage) 100
      ≤ tx.amount * s.percentage ∧
    tx.amount * s.percentage
      < 100 * (Int.tdiv (tx.amount * s.percentage) 100 + 1) := by
  have hprod : 0 ≤ tx.amount * s.percentage := mul_nonneg ha hp0
  have hmin : INT64_MIN ≤ 0 := by decide
  refine ⟨?_, ?_, ?_, ?_⟩
  · intro hov
    have hpne : s.percentage ≠ 0 := by
      intro hz
      rw [hz, mul_zero] at hov
      exact absurd hov (by decide)
    have hmc : mulChecked tx.amount s.percentage = none := by
      unfold mulChecked
      rw [if_pos (Or.inr hov)]
    simp [processTx, FORWARD_PERCENTAGE, hm, forwardPercentage, hpne, hmc]
  · intro hle
    unfold mulChecked
    rw [if_neg (by omega)]
  · rw [Int.tdiv_eq_ediv hprod (by decide)]
    omega
  · rw [Int.tdiv_eq_ediv hprod (by decide)]
    omega

/-- Witness for C8 at amount 100 and percentage 50: 5000 fits and its
quotient 50 is the floor. -/
theorem forwardAmount_exact_witness :
    100 * Int.tdiv (txFwd.amount * exState.percentage) 100
        ≤ txFwd.amount * exState.percentage ∧
    txFwd.amount * exState.percentage
        < 100 * (Int.tdiv (txFwd.amount * exState.percentage) 100 + 1) :=
  ⟨(forwardAmount_exact exState txFwd rfl (by decide) (by decide)
      (by decide)).2.2.1,
   (forwardAmount_exact exState txFwd rfl (by decide) (by decide)
      (by decide)).2.2.2⟩

/-- A successful sendAmount does not change the stored percentage. -/
theorem sendAmount_percentage (s : CState) (amt r : Int) (s2 : CState)
    (h : sendAmount s amt r = some s2) : s2.percentage = s.percentage := by
  unfold sendAmount at h
  rcases ht : transfer s.bal s.contractId r 0 amt with _ | b
  · rw [ht] at h
    simp at h
  · rw [ht] at h
    simp only [Option.map_some', Option.some.injEq] at h
    rw [← h]

/-- A successful sendQuantity does not change the stored percentage. -/
theorem sendQuantity_percentage (s : CState) (amt assetId r : Int) (s2 : CState)
    (h : sendQuantity s amt assetId r = some s2) : s2.percentage = s.percentage := by
  unfold sendQuantity at h
  rcases ht : transfer s.bal s.contractId r assetId amt with _ | b
  · rw [ht] at h
    simp at h
  · rw [ht] at h
    simp only [Option.map_some', Option.some.injEq] at h
    rw [← h]

/-- A successful pullFunds does not change the stored percentage. -/
theorem pullFunds_percentage (s : CState) (sender tokenId : Int) (s2 : CState)
    (h : pullFunds s sender tokenId = some s2) : s2.percentage = s.percentage := by
  unfold pullFunds at h
  split_ifs at h with h1 h2
  · simp only [Option.some.injEq] at h
    rw [← h]
  · unfold sendBalance at h
    exact sendAmount_percentage _ _ _ _ h
  · exact sendQuantity_percentage _ _ _ _ _ h

/-- A successful forwardPercentage does not change the stored percentage. -/
theorem forwardPercentage_percentage (s : CState) (amount recipientId : Int)
    (s2 : CState) (h : forwardPercentage s amount recipientId = some s2) :
    s2.percentage = s.percentage := by
  unfold forwardPercentage at h
  split_ifs at h with h1
  · simp only [Option.some.injEq] at h
    rw [← h]
  · rcases hm : mulChecked amount s.percentage with _ | m
    · rw [hm] at h
      simp at h
    · rw [hm] at h
      simp only [Option.some_bind] at h
      exact sendAmount_percentage _ _ _ _ h

/-- After a successful dispatch the stored percentage is either kept, a
clamp bound, or an in-range requested value. -/
theorem processTx_percentage (s : CState) (tx : Tx) (s2 : CState)
    (h : processTx s tx = some s2) :
    s2.percentage = s.percentage ∨ s2.percentage = 0 ∨ s2.percentage = 100 ∨
      (s2.percentage = tx.message1 ∧ 0 ≤ tx.message1 ∧ tx.message1 ≤ 100) := by
  unfold processTx at h
  split_ifs at h with h1 h2 h3 h4
  · exact Or.inl (forwardPercentage_percentage _ _ _ _ h)
  · simp only [Option.some.injEq] at h
    unfold updatePercentage at h
    split_ifs at h with g1 g2 g3
    · exact Or.inl (by rw [← h])
    · exact Or.inr (Or.inr (Or.inl (by rw [← h])))
    · exact Or.inr (Or.inl (by rw [← h]))
    · exact Or.inr (Or.inr (Or.inr ⟨by rw [← h], by omega, by omega⟩))
  · simp only [Option.some.injEq] at h
    exact Or.inl (by rw [← h]; rfl)
  · exact Or.inl (pullFunds_percentage _ _ _ _ h)
  · simp only [Option.some.injEq] at h
    exact Or.inl (by rw [← h])

/-- C9: processing any transaction preserves the invariant that the
stored percentage lies in the range 0 to 100; updatePercentage is the
only writer and it always clamps. -/
theorem percentage_invariant (s : CState) (tx : Tx)
    (h0 : 0 ≤ s.percentage) (h1 : s.percentage ≤ 100) :
    0 ≤ (step s tx).percentage ∧ (step s tx).percentage ≤ 100 := by
  rcases hp : processTx s tx with _ | s2
  · simp only [step, hp, Option.getD_none]
    omega
  · have h2 := processTx_percentage s tx s2 hp
    simp only [step, hp, Option.getD_some]
    rcases h2 with h | h | h | ⟨h, h3, h4⟩ <;> omega

/-- Witness for C9 at the concrete state and a clamping update. -/
theorem percentage_invariant_witness :
    0 ≤ (step exState txUpd).percentage ∧
    (step exState txUpd).percentage ≤ 100 :=
  percentage_invariant exState txUpd (by decide) (by decide)

/-- C10: a freshly constructed contract (empty constructor body, the
percentage global default-initialized) stores percentage 0, so any
ForwardPercentage transaction processed in that state changes nothing. -/
theorem initial_forward_noop (cid cr : Int) (b : Int → Int → Int) :
    (initialState cid cr b).percentage = 0 ∧
    ∀ tx : Tx, tx.message0 = 1 →
      step (initialState cid cr b) tx = initialState cid cr b := by
  refine ⟨rfl, fun tx hm => ?_⟩
  simp [step, processTx, FORWARD_PERCENTAGE, hm, forwardPercentage,
    initialState, constructorBody]

/-- Witness for C10 on the concrete balance table and a forward
request. -/
theorem initial_forward_noop_witness :
    step (initialState 10 7 exBal) txFwd = initialState 10 7 exBal :=
  (initial_forward_noop 10 7 exBal).2 txFwd rfl
